import Mathlib

/-!
Verification of the landscape-client message-exchange core against its
natural-language specification.  The repository snapshot ships only the
test suites of the relevant subsystems; the broker message store, the
package store/reporter, the user monitor and the script-execution plugin
are therefore modelled from the specification text (each such definition
says so in its doc comment).
-/

namespace Landscape

/-- Modelled from the spec: the payload of a queued message.  Only the
fields that the properties below inspect are represented; `raw` stands for
any other message body. -/
inductive Payload where
  | addPackages (packages : List String) (requestId : Nat)
  | unknownPackageHashes (hashes : List String) (requestId : Nat)
  | operationResult (operationId : Nat) (status : Nat)
      (resultText : String) (resultCode : Option Nat)
  | users (createUsers deleteUsers createGroups deleteGroups : List String)
  | raw (body : String)
  deriving DecidableEq, Repr

/-- Modelled from the spec: a message always carries a `type` string and a
body.  The store-internal `id` is attached separately once queued. -/
structure Message where
  type : String
  payload : Payload
  deriving DecidableEq, Repr

/-- A message as held by the store, with its store-local id. -/
structure StoredMessage where
  id : Nat
  msg : Message
  deriving DecidableEq, Repr

/-- Modelled from the spec: the broker MessageStore.  `messages` holds the
queued, not-yet-acknowledged messages in insertion order; `nextId` is the
strictly increasing id counter; `acceptedTypes` is the server-declared
whitelist.  Schema registration and the size bound are outside the
properties checked here. -/
structure MessageStore where
  messages : List StoredMessage
  nextId : Nat
  acceptedTypes : List String
  deriving DecidableEq, Repr

namespace MessageStore

/-- Modelled from the spec: `add(message) -> id` assigns the next id,
appends durably and returns the id. -/
def add (ms : MessageStore) (m : Message) : MessageStore × Nat :=
  ({ ms with messages := ms.messages ++ [{ id := ms.nextId, msg := m }],
             nextId := ms.nextId + 1 },
   ms.nextId)

/-- Modelled from the spec: `get_pending_messages` returns the queued
messages whose `type` is in `accepted_types`, oldest first. -/
def getPendingMessages (ms : MessageStore) : List StoredMessage :=
  ms.messages.filter (fun sm => ms.acceptedTypes.contains sm.msg.type)

/-- Modelled from the spec: `set_accepted_types` atomically replaces the
accepted-type set, touching no stored message. -/
def setAcceptedTypes (ms : MessageStore) (types : List String) : MessageStore :=
  { ms with acceptedTypes := types }

/-- Modelled from the spec: `is_pending(message_id)` is true while the
message is still awaiting acknowledgment. -/
def isPending (ms : MessageStore) (messageId : Nat) : Bool :=
  ms.messages.any (fun sm => sm.id == messageId)

end MessageStore

/-- Modelled from the spec: one outstanding hash-id request: local `id`,
the ordered hash list, the id of the message-store entry that carried it
(`none` until sent), and the last-touched timestamp. -/
structure HashIdRequest where
  id : Nat
  hashes : List String
  messageId : Option Nat
  timestamp : Int
  deriving DecidableEq, Repr

/-- Modelled from the spec: the package store: the persisted hash-to-id
dictionary plus the outstanding hash-id requests. -/
structure PackageStore where
  hashIds : List (String × Nat)
  requests : List HashIdRequest
  nextRequestId : Nat
  deriving DecidableEq, Repr

namespace PackageStore

/-- Modelled from the spec: `get_hash_id(hash) -> id | None`. -/
def getHashId (ps : PackageStore) (hash : String) : Option Nat :=
  ps.hashIds.lookup hash

/-- Modelled from the spec: `set_hash_ids(mapping)` updates the persisted
dictionary; a later pair for the same key wins, as in a dict update. -/
def setHashIds (ps : PackageStore) (pairs : List (String × Nat)) : PackageStore :=
  { ps with hashIds := pairs.reverse ++ ps.hashIds }

/-- Modelled from the spec: lookup of an outstanding request by id;
`none` models the `UnknownHashIDRequest` error. -/
def getHashIdRequest (ps : PackageStore) (requestId : Nat) : Option HashIdRequest :=
  ps.requests.find? (fun r => r.id == requestId)

end PackageStore

/-- Modelled from the spec: the timeout of the hash-id expiry sweep.  A
deployment-tuned constant; its exact value is immaterial to the
properties below. -/
def HASH_ID_REQUEST_TIMEOUT : Int := 7200

/-- Modelled from the spec: the cap on hashes carried by one hash-id
request; a configuration knob, hence a parameter of
`requestUnknownHashes` below, with this deployment default. -/
def MAX_UNKNOWN_HASHES_PER_REQUEST : Nat := 500

namespace Reporter

/-- Modelled from the spec: the expiry sweep
`remove_expired_hash_id_requests`.  A request whose message the store
still shows as pending has its timestamp refreshed; a request never
durably queued (no message id) is deleted; a sent request whose message
is no longer pending is deleted once older than the timeout and kept
untouched otherwise. -/
def sweepRequest (now : Int) (ms : MessageStore) (r : HashIdRequest) :
    Option HashIdRequest :=
  match r.messageId with
  | none => none
  | some mid =>
    if ms.isPending mid then some { r with timestamp := now }
    else if r.timestamp < now - HASH_ID_REQUEST_TIMEOUT then none
    else some r

/-- Modelled from the spec: the sweep applied to every outstanding
request. -/
def removeExpiredHashIdRequests (now : Int) (ms : MessageStore)
    (ps : PackageStore) : PackageStore :=
  { ps with requests := ps.requests.filterMap (sweepRequest now ms) }

/-- The hashes of `avail` that neither have a stored id nor occur in any
outstanding hash-id request.  Modelled from the spec: duplicate and
already-requested hashes are filtered out before a new request is made. -/
def unknownNotRequested (ps : PackageStore) (avail : List String) : List String :=
  avail.filter (fun h =>
    (ps.getHashId h).isNone
      && !(ps.requests.any (fun r => r.hashes.contains h)))

/-- Modelled from the spec: `request_unknown_hashes`.  The unknown,
not-yet-requested hashes are capped at `cap` per request; if none remain
nothing happens; otherwise an `unknown-package-hashes` message is sent
through the broker and the new request is recorded with the resulting
message id.  When the broker send fails the request is not kept (it would
have no message id), leaving the store unchanged. -/
def requestUnknownHashes (cap : Nat) (avail : List String) (sendOk : Bool)
    (now : Int) (ps : PackageStore) (ms : MessageStore) :
    PackageStore × MessageStore :=
  let toRequest := (unknownNotRequested ps avail).take cap
  if toRequest.isEmpty then (ps, ms)
  else if sendOk then
    let rid := ps.nextRequestId
    let (ms', mid) := ms.add
      { type := "unknown-package-hashes",
        payload := .unknownPackageHashes toRequest rid }
    ({ ps with
        requests := ps.requests
          ++ [{ id := rid, hashes := toRequest, messageId := some mid,
                timestamp := now }],
        nextRequestId := rid + 1 },
     ms')
  else (ps, ms)

/-- The `(hash, id)` pairs of a positionally aligned answer whose id is
known (not `None`). -/
def knownPairs (hashes : List String) (ids : List (Option Nat)) :
    List (String × Nat) :=
  (hashes.zip ids).filterMap (fun p => p.2.map (fun i => (p.1, i)))

/-- The hashes of a positionally aligned answer whose id is `None` — the
positions needing a full-payload upload. -/
def unknownPositions (hashes : List String) (ids : List (Option Nat)) :
    List String :=
  (hashes.zip ids).filterMap (fun p => if p.2.isNone then some p.1 else none)

/-- Modelled from the spec: processing one `package-ids` task with
positional id list `ids` for request `requestId`.  Every `(hash, id)`
pair with a known id is stored; if some positions are unknown (`none`), a
follow-up `add-packages` message carrying the package data (`skel` maps a
hash to its skeleton payload) is sent under a fresh hash-id request and
the answered request is deleted; with no unknown position the request is
simply deleted.  When the follow-up send fails, the answered request is
left in place and no message is queued. -/
def setPackageIds (skel : String → String) (sendOk : Bool) (now : Int)
    (ids : List (Option Nat)) (requestId : Nat)
    (ps : PackageStore) (ms : MessageStore) : PackageStore × MessageStore :=
  match ps.getHashIdRequest requestId with
  | none => (ps, ms)
  | some r =>
    let ps1 := ps.setHashIds (knownPairs r.hashes ids)
    let unknownHashes := unknownPositions r.hashes ids
    if unknownHashes.isEmpty then
      ({ ps1 with requests := ps1.requests.filter (fun q => q.id != requestId) },
       ms)
    else if sendOk then
      let rid := ps1.nextRequestId
      let (ms', mid) := ms.add
        { type := "add-packages",
          payload := .addPackages (unknownHashes.map skel) rid }
      ({ ps1 with
          requests := ps1.requests.filter (fun q => q.id != requestId)
            ++ [{ id := rid, hashes := unknownHashes, messageId := some mid,
                  timestamp := now }],
          nextRequestId := rid + 1 },
       ms')
    else (ps1, ms)

end Reporter

/-- Modelled from the spec: the observable events of one supervised child
process, as driven by the cooperative scheduler: output arriving on a
pipe, virtual time advancing, and the process exiting. -/
inductive PEvent where
  | childDataReceived (bytes : String)
  | advance (seconds : Nat)
  | processEnded
  deriving DecidableEq, Repr

/-- Modelled from the spec: the run outcome of a supervised process —
success with the accumulated output, or the time-limit failure
(`ProcessTimeLimitReachedError`) carrying the output accumulated before
the limit was reached. -/
inductive RunOutcome where
  | ok (output : String)
  | timeLimitReached (dataSoFar : String)
  deriving DecidableEq, Repr

/-- Modelled from the spec: the supervision state of one spawned script:
accumulated output, the virtual clock, the wall-clock limit, whether the
time-limit timer is still scheduled, whether a terminate signal was sent,
and the delivered outcome (none while still running). -/
structure SpawnState where
  accData : String
  clock : Nat
  timeLimit : Nat
  timerActive : Bool
  terminated : Bool
  result : Option RunOutcome
  deriving DecidableEq, Repr

namespace SpawnState

/-- The state right after spawning a process under wall-clock limit
`limit`. -/
def init (limit : Nat) : SpawnState :=
  { accData := "", clock := 0, timeLimit := limit,
    timerActive := true, terminated := false, result := none }

/-- Modelled from the spec: one scheduler event.  Output accumulates while
no outcome is delivered; normal exit cancels the timer and yields the
output; when the clock passes the limit with the timer still scheduled,
the process is signaled to terminate and the timeout failure carrying the
output-so-far is delivered.  Events after an outcome leave it intact. -/
def step (s : SpawnState) : PEvent → SpawnState
  | .childDataReceived b =>
    if s.result.isNone then { s with accData := s.accData ++ b } else s
  | .processEnded =>
    match s.result with
    | some _ => s
    | none => { s with result := some (.ok s.accData), timerActive := false }
  | .advance t =>
    if s.timerActive && decide (s.timeLimit ≤ s.clock + t) && s.result.isNone then
      { s with clock := s.clock + t, timerActive := false, terminated := true,
               result := some (.timeLimitReached s.accData) }
    else { s with clock := s.clock + t }

/-- Run a spawned process with limit `limit` through a list of scheduler
events. -/
def run (limit : Nat) (events : List PEvent) : SpawnState :=
  events.foldl step (init limit)

end SpawnState

/-- Modelled from the spec: the `operation-result` failure status code
(its numeric value is protocol-defined and immaterial here, only its
distinctness from `SUCCEEDED`). -/
def FAILED : Nat := 5

/-- Modelled from the spec: the `operation-result` success status code. -/
def SUCCEEDED : Nat := 6

namespace ScriptExecution

/-- Modelled from the spec: the fields of an `execute-script` message that
the failure paths inspect.  `username := none` models a malformed message
lacking the username key while still carrying its operation-id. -/
structure ExecuteScriptMsg where
  operationId : Nat
  username : Option String
  deriving DecidableEq, Repr

/-- Modelled from the spec: handling one `execute-script` operation.
A malformed message (no username) fails with the parse error text; a
username outside the configured allowed users fails with an explanation;
otherwise the script runs and its outcome is reported — a time-limit
failure carries the output gathered so far (result code 102), success
carries the output.  Exactly one `operation-result` message is queued in
every case; the handler is total, never a crash. -/
def handleExecuteScript (allowedUsers : List String)
    (msg : ExecuteScriptMsg) (outcome : RunOutcome)
    (ms : MessageStore) : MessageStore :=
  let reply (status : Nat) (text : String) (code : Option Nat) :=
    (ms.add { type := "operation-result",
              payload := .operationResult msg.operationId status text code }).1
  match msg.username with
  | none => reply FAILED "KeyError: username" none
  | some u =>
    if allowedUsers.contains u then
      match outcome with
      | .ok out => reply SUCCEEDED out none
      | .timeLimitReached dat => reply FAILED dat (some 102)
    else reply FAILED ("Scripts cannot be run as user " ++ u ++ ".") none

end ScriptExecution

namespace UserMonitor

/-- Modelled from the spec: the user monitor's persisted diff baseline —
the users and groups snapshots of the last successfully sent message
(`none` until a first message is delivered, or after a resynchronize). -/
structure Persist where
  users : Option (List String)
  groups : Option (List String)
  deriving DecidableEq, Repr

/-- The empty baseline. -/
def Persist.empty : Persist := { users := none, groups := none }

/-- Modelled from the spec: the diff-like `users` message computed from
the baseline and the current snapshots: with no baseline, the full state;
otherwise only the changes, and no message at all when nothing changed. -/
def changesMessage (p : Persist) (curUsers curGroups : List String) :
    Option Message :=
  match p.users, p.groups with
  | some bu, some bg =>
    let cu := curUsers.filter (fun u => !(bu.contains u))
    let du := bu.filter (fun u => !(curUsers.contains u))
    let cg := curGroups.filter (fun g => !(bg.contains g))
    let dg := bg.filter (fun g => !(curGroups.contains g))
    if cu.isEmpty && du.isEmpty && cg.isEmpty && dg.isEmpty then none
    else some { type := "users", payload := .users cu du cg dg }
  | _, _ =>
    some { type := "users", payload := .users curUsers [] curGroups [] }

/-- Modelled from the spec: one detection run of the user monitor.  When
the `users` type is not accepted, nothing is sent and nothing persisted.
Otherwise the change message (if any) is sent through the broker and the
baseline is persisted only when the broker confirms the send; on a send
failure neither the message store nor the baseline changes. -/
def detectChanges (p : Persist) (curUsers curGroups : List String)
    (accepted sendOk : Bool) (ms : MessageStore) : Persist × MessageStore :=
  if !accepted then (p, ms)
  else
    match changesMessage p curUsers curGroups with
    | none => (p, ms)
    | some m =>
      if sendOk then
        ({ users := some curUsers, groups := some curGroups }, (ms.add m).1)
      else (p, ms)

/-- Modelled from the spec: the `resynchronize` event handler.  With
global (empty) scope or a scope list containing this plugin's category
`users`, the persisted baseline is cleared and a run is triggered;
any other scope is ignored. -/
def resynchronize (p : Persist) (scopes : List String)
    (curUsers curGroups : List String) (accepted sendOk : Bool)
    (ms : MessageStore) : Persist × MessageStore :=
  if scopes.isEmpty || scopes.contains "users" then
    detectChanges Persist.empty curUsers curGroups accepted sendOk ms
  else (p, ms)

end UserMonitor

/-- The message-store operations an exchange-free trace may perform while
a held-back message waits: queueing further messages and replacing the
accepted-types set. -/
inductive StoreOp where
  | setAccepted (types : List String)
  | addMsg (m : Message)
  deriving DecidableEq, Repr

/-- Apply one store operation. -/
def applyOp (ms : MessageStore) : StoreOp → MessageStore
  | .setAccepted ts => ms.setAcceptedTypes ts
  | .addMsg m => (ms.add m).1

/-- Apply a trace of store operations in order. -/
def applyOps (ms : MessageStore) (ops : List StoreOp) : MessageStore :=
  ops.foldl applyOp ms

/-! ## Theorems -/

theorem mem_messages_applyOp (ms : MessageStore) (op : StoreOp)
    (sm : StoredMessage) (h : sm ∈ ms.messages) :
    sm ∈ (applyOp ms op).messages := by
  cases op with
  | setAccepted ts => exact h
  | addMsg m =>
    simp only [applyOp, MessageStore.add, List.mem_append]
    exact Or.inl h

theorem mem_messages_applyOps (ms : MessageStore) (ops : List StoreOp)
    (sm : StoredMessage) (h : sm ∈ ms.messages) :
    sm ∈ (applyOps ms ops).messages := by
  induction ops generalizing ms with
  | nil => exact h
  | cons op ops ih => exact ih (applyOp ms op) (mem_messages_applyOp ms op sm h)

theorem acceptedTypes_applyOps (ms : MessageStore) (ops : List StoreOp)
    (T : String) (h0 : T ∉ ms.acceptedTypes)
    (h1 : ∀ ts, StoreOp.setAccepted ts ∈ ops → T ∉ ts) :
    T ∉ (applyOps ms ops).acceptedTypes := by
  induction ops generalizing ms with
  | nil => exact h0
  | cons op ops ih =>
    refine ih (applyOp ms op) ?_ (fun ts hts => h1 ts (List.mem_cons_of_mem _ hts))
    cases op with
    | setAccepted ts => exact h1 ts (List.mem_cons_self _ _)
    | addMsg m => exact h0

theorem mem_getPendingMessages (ms : MessageStore) (sm : StoredMessage) :
    sm ∈ ms.getPendingMessages ↔
      sm ∈ ms.messages ∧ sm.msg.type ∈ ms.acceptedTypes := by
  simp [MessageStore.getPendingMessages, List.mem_filter, List.elem_iff]

/-- Claim C2: a message added while its type is outside the accepted set
is never returned by `get_pending_messages` as long as no
`set_accepted_types` call includes the type, is never dropped by any
later trace of store operations, and becomes eligible for transmission
again once the current accepted set contains the type. -/
theorem accepted_types_gating (ms : MessageStore) (m : Message)
    (ops : List StoreOp) :
    (⟨ms.nextId, m⟩ : StoredMessage) ∈ (applyOps (ms.add m).1 ops).messages ∧
    (m.type ∉ ms.acceptedTypes →
      (∀ ts, StoreOp.setAccepted ts ∈ ops → m.type ∉ ts) →
      (⟨ms.nextId, m⟩ : StoredMessage) ∉
        (applyOps (ms.add m).1 ops).getPendingMessages) ∧
    (m.type ∈ (applyOps (ms.add m).1 ops).acceptedTypes →
      (⟨ms.nextId, m⟩ : StoredMessage) ∈
        (applyOps (ms.add m).1 ops).getPendingMessages) := by
  have hmem : (⟨ms.nextId, m⟩ : StoredMessage) ∈ ((ms.add m).1).messages := by
    simp [MessageStore.add]
  have hmem2 := mem_messages_applyOps (ms.add m).1 ops _ hmem
  refine ⟨hmem2, fun h0 h1 hpend => ?_, fun hacc => ?_⟩
  · have hacc := ((mem_getPendingMessages _ _).mp hpend).2
    exact acceptedTypes_applyOps (ms.add m).1 ops m.type h0 h1 hacc
  · exact (mem_getPendingMessages _ _).mpr ⟨hmem2, hacc⟩

/-- Witness for C2 at a concrete store, message and operation trace. -/
theorem accepted_types_gating_witness :
    (⟨0, { type := "users", payload := .raw "" }⟩ : StoredMessage) ∉
      (applyOps ((MessageStore.mk [] 0 []).add
          { type := "users", payload := .raw "" }).1 []).getPendingMessages ∧
    (⟨0, { type := "users", payload := .raw "" }⟩ : StoredMessage) ∈
      (applyOps ((MessageStore.mk [] 0 []).add
          { type := "users", payload := .raw "" }).1
        [.setAccepted ["users"]]).getPendingMessages := by
  constructor
  · exact (accepted_types_gating (MessageStore.mk [] 0 [])
      { type := "users", payload := .raw "" } []).2.1
      (by simp) (by simp)
  · exact (accepted_types_gating (MessageStore.mk [] 0 [])
      { type := "users", payload := .raw "" } [.setAccepted ["users"]]).2.2
      (by simp [applyOps, applyOp, MessageStore.setAcceptedTypes])

theorem sweepRequest_id_eq (now : Int) (ms : MessageStore)
    (q q' : HashIdRequest)
    (h : Reporter.sweepRequest now ms q = some q') : q'.id = q.id := by
  unfold Reporter.sweepRequest at h
  rcases hm : q.messageId with _ | mid <;> rw [hm] at h
  · simp at h
  · by_cases hp : ms.isPending mid
    · simp only [hp, if_true] at h
      cases h
      rfl
    · simp only [hp, Bool.false_eq_true, if_false] at h
      by_cases ht : q.timestamp < now - HASH_ID_REQUEST_TIMEOUT
      · simp [ht] at h
      · simp only [ht, if_false] at h
        cases h
        rfl

theorem sweep_deleted (now : Int) (ms : MessageStore) (ps : PackageStore)
    (r : HashIdRequest) (hr : r ∈ ps.requests)
    (hnodup : (ps.requests.map HashIdRequest.id).Nodup)
    (hnone : Reporter.sweepRequest now ms r = none) :
    ∀ q ∈ (Reporter.removeExpiredHashIdRequests now ms ps).requests,
      q.id ≠ r.id := by
  intro q hq heq
  simp only [Reporter.removeExpiredHashIdRequests, List.mem_filterMap] at hq
  obtain ⟨q0, hq0, hfq⟩ := hq
  have hid : q0.id = r.id := (sweepRequest_id_eq now ms q0 q hfq) ▸ heq
  have : q0 = r := List.inj_on_of_nodup_map hnodup hq0 hr hid
  rw [this, hnone] at hfq
  exact Option.noConfusion hfq

/-- Claim C3: the expiry sweep refreshes and keeps a request whose
message the store still shows as pending, deletes a request older than
the timeout whose message is no longer pending, deletes a request that
never got a message id, and keeps untouched a sent request younger than
the timeout whose message is not pending. -/
theorem hash_id_request_expiry (now : Int) (ms : MessageStore)
    (ps : PackageStore) (r : HashIdRequest) (hr : r ∈ ps.requests)
    (hnodup : (ps.requests.map HashIdRequest.id).Nodup) :
    (∀ mid, r.messageId = some mid → ms.isPending mid = true →
      { r with timestamp := now } ∈
        (Reporter.removeExpiredHashIdRequests now ms ps).requests) ∧
    (∀ mid, r.messageId = some mid → ms.isPending mid = false →
      r.timestamp < now - HASH_ID_REQUEST_TIMEOUT →
      ∀ q ∈ (Reporter.removeExpiredHashIdRequests now ms ps).requests,
        q.id ≠ r.id) ∧
    (r.messageId = none →
      ∀ q ∈ (Reporter.removeExpiredHashIdRequests now ms ps).requests,
        q.id ≠ r.id) ∧
    (∀ mid, r.messageId = some mid → ms.isPending mid = false →
      ¬ r.timestamp < now - HASH_ID_REQUEST_TIMEOUT →
      r ∈ (Reporter.removeExpiredHashIdRequests now ms ps).requests) := by
  refine ⟨fun mid hm hp => ?_, fun mid hm hp ht => ?_, fun hm => ?_,
    fun mid hm hp ht => ?_⟩
  · simp only [Reporter.removeExpiredHashIdRequests, List.mem_filterMap]
    exact ⟨r, hr, by simp [Reporter.sweepRequest, hm, hp]⟩
  · exact sweep_deleted now ms ps r hr hnodup
      (by simp [Reporter.sweepRequest, hm, hp, ht])
  · exact sweep_deleted now ms ps r hr hnodup
      (by simp [Reporter.sweepRequest, hm])
  · simp only [Reporter.removeExpiredHashIdRequests, List.mem_filterMap]
    exact ⟨r, hr, by simp [Reporter.sweepRequest, hm, hp, ht]⟩

/-- Witness for C3 at a concrete store: one pending request, one expired
non-pending request, one request without a message id, and one fresh
non-pending request. -/
theorem hash_id_request_expiry_witness :
    (let ms : MessageStore :=
      ⟨[⟨7, { type := "add-packages", payload := .raw "" }⟩], 8, []⟩
     let rPend : HashIdRequest := ⟨1, ["h1"], some 7, 0⟩
     let rOld : HashIdRequest := ⟨2, ["h2"], some 9999, -20000⟩
     let rNoMsg : HashIdRequest := ⟨3, ["h3"], none, 0⟩
     let rFresh : HashIdRequest := ⟨4, ["h4"], some 9999, -100⟩
     let ps : PackageStore := ⟨[], [rPend, rOld, rNoMsg, rFresh], 5⟩
     let swept := (Reporter.removeExpiredHashIdRequests 0 ms ps).requests
     ({ rPend with timestamp := 0 } ∈ swept ∧
      (∀ q ∈ swept, q.id ≠ 2) ∧
      (∀ q ∈ swept, q.id ≠ 3) ∧
      rFresh ∈ swept)) := by
  refine ⟨?_, ?_, ?_, ?_⟩
  · exact (hash_id_request_expiry 0 _ _ _ (by simp) (by decide)).1 7
      (by decide) (by decide)
  · exact (hash_id_request_expiry 0 _ _ ⟨2, ["h2"], some 9999, -20000⟩
      (by simp) (by decide)).2.1 9999 (by decide) (by decide) (by decide)
  · exact (hash_id_request_expiry 0 _ _ ⟨3, ["h3"], none, 0⟩
      (by simp) (by decide)).2.2.1 (by decide)
  · exact (hash_id_request_expiry 0 _ _ ⟨4, ["h4"], some 9999, -100⟩
      (by simp) (by decide)).2.2.2 9999 (by decide) (by decide) (by decide)

theorem foldl_append_str (cs : List String) (a b : String) :
    List.foldl (fun r s => r ++ s) (a ++ b) cs
      = a ++ List.foldl (fun r s => r ++ s) b cs := by
  induction cs generalizing b with
  | nil => rfl
  | cons c cs ih => simp only [List.foldl_cons, String.append_assoc, ih]

theorem string_join_cons (cs : List String) (c : String) :
    String.join (c :: cs) = c ++ String.join cs := by
  have h := foldl_append_str cs c ""
  simp only [String.append_empty] at h
  simpa [String.join] using h

theorem run_data_events (chunks : List String) (s : SpawnState)
    (h : s.result = none) :
    (chunks.map PEvent.childDataReceived).foldl SpawnState.step s
      = { s with accData := s.accData ++ String.join chunks } := by
  induction chunks generalizing s with
  | nil => simp [String.join, String.append_empty]
  | cons c cs ih =>
    have hstep : SpawnState.step s (.childDataReceived c)
        = { s with accData := s.accData ++ c } := by
      simp [SpawnState.step, h]
    simp only [List.map_cons, List.foldl_cons, hstep]
    rw [ih { s with accData := s.accData ++ c } h]
    simp [string_join_cons, String.append_assoc]

theorem run_advance_events (ts : List Nat) (s : SpawnState)
    (h : s.timerActive = false) :
    ((ts.map PEvent.advance).foldl SpawnState.step s).result = s.result ∧
    ((ts.map PEvent.advance).foldl SpawnState.step s).terminated
      = s.terminated ∧
    ((ts.map PEvent.advance).foldl SpawnState.step s).timerActive = false := by
  induction ts generalizing s with
  | nil => exact ⟨rfl, rfl, h⟩
  | cons t ts ih =>
    have hstep : SpawnState.step s (.advance t)
        = { s with clock := s.clock + t } := by
      simp [SpawnState.step, h]
    simp only [List.map_cons, List.foldl_cons, hstep]
    exact ih { s with clock := s.clock + t } h

theorem run_timeout_state (chunks : List String) (limit : Nat) :
    (chunks.map PEvent.childDataReceived
        ++ [PEvent.advance (limit + 1)]).foldl SpawnState.step
        (SpawnState.init limit)
      = { accData := String.join chunks, clock := limit + 1,
          timeLimit := limit, timerActive := false, terminated := true,
          result := some (.timeLimitReached (String.join chunks)) } := by
  rw [List.foldl_append, run_data_events chunks (SpawnState.init limit) rfl]
  have hcond : ((true : Bool) && decide (limit ≤ 0 + (limit + 1))
      && (none : Option RunOutcome).isNone) = true := by
    simp
  simp [SpawnState.init, SpawnState.step, hcond]

/-- Claim C6: a spawned script that writes output and then exceeds its
wall-clock limit before exiting fails with the time-limit error carrying
exactly the bytes written before the limit, and the process is signaled
to terminate rather than left running; the late exit notification does
not change the outcome. -/
theorem script_timeout_accumulates (chunks : List String) (limit : Nat) :
    (SpawnState.run limit (chunks.map .childDataReceived
        ++ [.advance (limit + 1), .processEnded])).result
      = some (.timeLimitReached (String.join chunks)) ∧
    (SpawnState.run limit (chunks.map .childDataReceived
        ++ [.advance (limit + 1), .processEnded])).terminated = true := by
  have hsplit : chunks.map PEvent.childDataReceived
      ++ [PEvent.advance (limit + 1), PEvent.processEnded]
      = (chunks.map PEvent.childDataReceived ++ [PEvent.advance (limit + 1)])
        ++ [PEvent.processEnded] := by
    simp
  have hrun : SpawnState.run limit (chunks.map .childDataReceived
      ++ [.advance (limit + 1), .processEnded])
      = SpawnState.step ((chunks.map PEvent.childDataReceived
          ++ [PEvent.advance (limit + 1)]).foldl SpawnState.step
          (SpawnState.init limit)) .processEnded := by
    rw [SpawnState.run, hsplit, List.foldl_append]
    rfl
  rw [hrun, run_timeout_state]
  constructor <;> simp [SpawnState.step]

/-- Claim C7: a script that exits normally before its time limit yields
its output, its time-limit timer is cancelled, and however far the clock
then advances past the limit no terminate signal is ever sent. -/
theorem timer_cancelled_on_success (chunks : List String) (limit : Nat)
    (ts : List Nat) :
    (SpawnState.run limit (chunks.map .childDataReceived
        ++ [.processEnded] ++ ts.map .advance)).result
      = some (.ok (String.join chunks)) ∧
    (SpawnState.run limit (chunks.map .childDataReceived
        ++ [.processEnded] ++ ts.map .advance)).terminated = false ∧
    (SpawnState.run limit (chunks.map .childDataReceived
        ++ [.processEnded] ++ ts.map .advance)).timerActive = false := by
  have hended : (chunks.map PEvent.childDataReceived
      ++ [PEvent.processEnded]).foldl SpawnState.step (SpawnState.init limit)
      = { accData := String.join chunks, clock := 0, timeLimit := limit,
          timerActive := false, terminated := false,
          result := some (.ok (String.join chunks)) } := by
    rw [List.foldl_append, run_data_events chunks (SpawnState.init limit) rfl]
    simp [SpawnState.init, SpawnState.step]
  have hrun : SpawnState.run limit (chunks.map .childDataReceived
      ++ [.processEnded] ++ ts.map .advance)
      = (ts.map PEvent.advance).foldl SpawnState.step
        { accData := String.join chunks, clock := 0, timeLimit := limit,
          timerActive := false, terminated := false,
          result := some (.ok (String.join chunks)) } := by
    rw [SpawnState.run, List.foldl_append, hended]
  rw [hrun]
  exact run_advance_events ts _ rfl

/-- Claim C8: every failing `execute-script` operation — time limit
reached, a username outside the configured allowed users, or a malformed
message still carrying its operation-id — queues exactly one
`operation-result` message with the original operation-id, the FAILED
status and the human-readable text (partial output, the
"Scripts cannot be run as user ..." explanation, or the parse error),
without crashing the handler. -/
theorem operation_failures_reported (allowed : List String) (opId : Nat)
    (u v : String) (outcome : RunOutcome) (dat : String) (ms : MessageStore)
    (hu : u ∉ allowed) (hv : v ∈ allowed) :
    (ScriptExecution.handleExecuteScript allowed ⟨opId, none⟩ outcome
        ms).messages
      = ms.messages ++ [⟨ms.nextId,
          Message.mk "operation-result"
            (.operationResult opId FAILED "KeyError: username" none)⟩] ∧
    (ScriptExecution.handleExecuteScript allowed ⟨opId, some u⟩ outcome
        ms).messages
      = ms.messages ++ [⟨ms.nextId,
          Message.mk "operation-result"
            (.operationResult opId FAILED
              ("Scripts cannot be run as user " ++ u ++ ".") none)⟩] ∧
    (ScriptExecution.handleExecuteScript allowed ⟨opId, some v⟩
        (.timeLimitReached dat) ms).messages
      = ms.messages ++ [⟨ms.nextId,
          Message.mk "operation-result"
            (.operationResult opId FAILED dat (some 102))⟩] := by
  have hcu : allowed.contains u = false := by
    simp [List.elem_iff, hu]
  have hcv : allowed.contains v = true := by
    simp [List.elem_iff, hv]
  refine ⟨?_, ?_, ?_⟩ <;>
    simp [ScriptExecution.handleExecuteScript, MessageStore.add, hcu, hcv,
      hu, hv]

/-- Witness for C8 at a concrete configuration, message and outcome. -/
theorem operation_failures_reported_witness :
    (ScriptExecution.handleExecuteScript ["landscape"] ⟨444, none⟩
        (.ok "") ⟨[], 0, []⟩).messages
      = [⟨0, Message.mk "operation-result"
          (.operationResult 444 FAILED "KeyError: username" none)⟩] ∧
    (ScriptExecution.handleExecuteScript ["landscape"] ⟨123, some "whatever"⟩
        (.ok "") ⟨[], 0, []⟩).messages
      = [⟨0, Message.mk "operation-result"
          (.operationResult 123 FAILED
            "Scripts cannot be run as user whatever." none)⟩] ∧
    (ScriptExecution.handleExecuteScript ["landscape"] ⟨123, some "landscape"⟩
        (.timeLimitReached "ONOEZ") ⟨[], 0, []⟩).messages
      = [⟨0, Message.mk "operation-result"
          (.operationResult 123 FAILED "ONOEZ" (some 102))⟩] := by
  refine ⟨?_, ?_, ?_⟩
  · exact (operation_failures_reported ["landscape"] 444 "whatever"
      "landscape" (.ok "") "" ⟨[], 0, []⟩ (by decide) (by decide)).1
  · exact (operation_failures_reported ["landscape"] 123 "whatever"
      "landscape" (.ok "") "" ⟨[], 0, []⟩ (by decide) (by decide)).2.1
  · exact (operation_failures_reported ["landscape"] 123 "whatever"
      "landscape" (.ok "") "ONOEZ" ⟨[], 0, []⟩ (by decide) (by decide)).2.2

/-- Claim C9: with a persisted diff baseline in place and unchanged OS
state, a `resynchronize` event whose scope list is empty (global) or
contains this plugin's category clears the baseline and makes the
triggered run emit the full — not incremental — state message, while a
`resynchronize` with a non-matching scope leaves the baseline intact and
produces no message; without any resynchronize, the unchanged state
produces no message at all. -/
theorem resynchronize_scoped (U G : List String)
    (scopes scopes' : List String) (ms ms' ms2 : MessageStore)
    (hmatch : scopes = [] ∨ "users" ∈ scopes)
    (hother : scopes' ≠ [] ∧ "users" ∉ scopes') :
    UserMonitor.resynchronize ⟨some U, some G⟩ scopes U G true true ms
      = (⟨some U, some G⟩,
         (ms.add (Message.mk "users" (.users U [] G []))).1) ∧
    UserMonitor.resynchronize ⟨some U, some G⟩ scopes' U G true true ms'
      = (⟨some U, some G⟩, ms') ∧
    UserMonitor.detectChanges ⟨some U, some G⟩ U G true true ms2
      = (⟨some U, some G⟩, ms2) := by
  have hself : ∀ l : List String, l.filter (fun x => !(l.contains x)) = [] :=
    fun l => List.filter_eq_nil_iff.mpr (fun a ha => by
      simp [List.elem_iff, ha])
  have hchanged : UserMonitor.changesMessage ⟨some U, some G⟩ U G = none := by
    simp [UserMonitor.changesMessage, hself]
  refine ⟨?_, ?_, ?_⟩
  · have hcond : (scopes.isEmpty || scopes.contains "users") = true := by
      rcases hmatch with h | h
      · simp [h]
      · simp [List.elem_iff, h]
    unfold UserMonitor.resynchronize
    rw [hcond]
    simp [UserMonitor.detectChanges, UserMonitor.Persist.empty,
      UserMonitor.changesMessage]
  · have hcond : (scopes'.isEmpty || scopes'.contains "users") = false := by
      simp [List.elem_iff, hother.2, List.isEmpty_iff, hother.1]
    unfold UserMonitor.resynchronize
    rw [hcond]
    simp
  · simp [UserMonitor.detectChanges, hchanged]

/-- Witness for C9 at a concrete baseline, snapshots and scope lists. -/
theorem resynchronize_scoped_witness :
    UserMonitor.resynchronize ⟨some ["jdoe"], some ["webdev"]⟩ ["users"]
        ["jdoe"] ["webdev"] true true ⟨[], 0, ["users"]⟩
      = (⟨some ["jdoe"], some ["webdev"]⟩,
         ⟨[⟨0, Message.mk "users" (.users ["jdoe"] [] ["webdev"] [])⟩], 1,
          ["users"]⟩) ∧
    UserMonitor.resynchronize ⟨some ["jdoe"], some ["webdev"]⟩ ["disk"]
        ["jdoe"] ["webdev"] true true ⟨[], 0, ["users"]⟩
      = (⟨some ["jdoe"], some ["webdev"]⟩, ⟨[], 0, ["users"]⟩) := by
  have h := resynchronize_scoped ["jdoe"] ["webdev"] ["users"] ["disk"]
    ⟨[], 0, ["users"]⟩ ⟨[], 0, ["users"]⟩ ⟨[], 0, ["users"]⟩
    (Or.inr (by decide)) (by decide)
  exact ⟨h.1, h.2.1⟩

/-- Claim C10: a failing broker send never leaves local durable state
recording it — the user monitor persists no baseline and queues nothing,
`request_unknown_hashes` stores no new hash-id request, and
`set_package_ids` leaves the answered request in place and queues no
follow-up message. -/
theorem send_failure_not_persisted
    (p : UserMonitor.Persist) (U G : List String) (accepted : Bool)
    (msU msR msS : MessageStore)
    (cap : Nat) (avail : List String) (now now2 : Int)
    (ps ps2 : PackageStore) (skel : String → String)
    (ids : List (Option Nat)) (reqId : Nat) (r : HashIdRequest) (k : Nat)
    (hfind : ps2.getHashIdRequest reqId = some r)
    (hk1 : k < ids.length) (hk2 : k < r.hashes.length)
    (hnone : ids.get ⟨k, hk1⟩ = none) :
    UserMonitor.detectChanges p U G accepted false msU = (p, msU) ∧
    Reporter.requestUnknownHashes cap avail false now ps msR = (ps, msR) ∧
    (Reporter.setPackageIds skel false now2 ids reqId ps2 msS).1.requests
      = ps2.requests ∧
    (Reporter.setPackageIds skel false now2 ids reqId ps2 msS).2 = msS := by
  have hum : UserMonitor.detectChanges p U G accepted false msU
      = (p, msU) := by
    unfold UserMonitor.detectChanges
    cases accepted with
    | false => rfl
    | true =>
      cases UserMonitor.changesMessage p U G with
      | none => rfl
      | some m => rfl
  have hru : Reporter.requestUnknownHashes cap avail false now ps msR
      = (ps, msR) := by
    simp only [Reporter.requestUnknownHashes]
    split
    · rfl
    · simp
  have hzlen : k < (r.hashes.zip ids).length := by
    simp only [List.length_zip]
    omega
  have hnone' : ids[k] = none := hnone
  have hmem : r.hashes[k] ∈ Reporter.unknownPositions r.hashes ids := by
    refine List.mem_filterMap.mpr
      ⟨(r.hashes[k], ids[k]), ?_, by simp [hnone']⟩
    have hz : (r.hashes.zip ids)[k] = (r.hashes[k], ids[k]) :=
      List.getElem_zip
    exact hz ▸ List.getElem_mem hzlen
  have hne : (Reporter.unknownPositions r.hashes ids).isEmpty = false := by
    cases hL : Reporter.unknownPositions r.hashes ids with
    | nil =>
      rw [hL] at hmem
      exact absurd hmem (List.not_mem_nil _)
    | cons a l => rfl
  refine ⟨hum, hru, ?_, ?_⟩ <;>
  · unfold Reporter.setPackageIds
    rw [hfind]
    simp [hne, PackageStore.setHashIds]

/-- Witness for C10 at a concrete monitor state, package store and
answer. -/
theorem send_failure_not_persisted_witness :
    UserMonitor.detectChanges ⟨none, none⟩ ["jdoe"] ["webdev"] true false
        ⟨[], 0, ["users"]⟩
      = (⟨none, none⟩, ⟨[], 0, ["users"]⟩) ∧
    Reporter.requestUnknownHashes 500 ["h1"] false 0
        ⟨[], [], 1⟩ ⟨[], 0, []⟩
      = (⟨[], [], 1⟩, ⟨[], 0, []⟩) ∧
    (Reporter.setPackageIds (fun h => h) false 0 [some 123, none] 1
        ⟨[], [⟨1, ["a", "b"], some 0, 0⟩], 2⟩ ⟨[], 1, []⟩).1.requests
      = [⟨1, ["a", "b"], some 0, 0⟩] ∧
    (Reporter.setPackageIds (fun h => h) false 0 [some 123, none] 1
        ⟨[], [⟨1, ["a", "b"], some 0, 0⟩], 2⟩ ⟨[], 1, []⟩).2
      = ⟨[], 1, []⟩ := by
  exact send_failure_not_persisted ⟨none, none⟩ ["jdoe"] ["webdev"] true
    ⟨[], 0, ["users"]⟩ ⟨[], 0, []⟩ ⟨[], 1, []⟩ 500 ["h1"] 0 0
    ⟨[], [], 1⟩ ⟨[], [⟨1, ["a", "b"], some 0, 0⟩], 2⟩ (fun h => h)
    [some 123, none] 1 ⟨1, ["a", "b"], some 0, 0⟩ 1
    (by decide) (by decide) (by decide) (by decide)

/-- Claim C4: requesting unknown hashes is idempotent — a hash already
covered by an outstanding hash-id request is never put into a newly
created request, and when every unknown hash is already covered no new
request and no new outbound message is created at all. -/
theorem hash_id_request_idempotent (cap : Nat) (avail : List String)
    (sendOk : Bool) (now : Int) (ps : PackageStore) (ms : MessageStore)
    (h : String) (r : HashIdRequest)
    (hr : r ∈ ps.requests) (hh : h ∈ r.hashes) :
    (∀ q ∈ (Reporter.requestUnknownHashes cap avail sendOk now ps
        ms).1.requests,
      q ∉ ps.requests → h ∉ q.hashes) ∧
    ((∀ x ∈ avail, (ps.getHashId x).isSome = true ∨
        ∃ q ∈ ps.requests, x ∈ q.hashes) →
      Reporter.requestUnknownHashes cap avail sendOk now ps ms = (ps, ms)) := by
  constructor
  · intro q hq hnew
    have hany : ps.requests.any (fun q' => q'.hashes.contains h) = true :=
      List.any_eq_true.mpr ⟨r, hr, by simp [List.elem_iff, hh]⟩
    simp only [Reporter.requestUnknownHashes] at hq
    split at hq
    · exact absurd hq hnew
    · split at hq
      · simp only [MessageStore.add] at hq
        rcases List.mem_append.mp hq with hold | hnewq
        · exact absurd hold hnew
        · intro hmem
          have hq2 : q = ⟨ps.nextRequestId,
              (Reporter.unknownNotRequested ps avail).take cap,
              some ms.nextId, now⟩ := by
            simpa using hnewq
          rw [hq2] at hmem
          have hmem2 : h ∈ Reporter.unknownNotRequested ps avail :=
            List.mem_of_mem_take hmem
          have := (List.mem_filter.mp hmem2).2
          simp only [Bool.and_eq_true, Bool.not_eq_true'] at this
          rw [hany] at this
          exact absurd this.2 (by simp)
      · exact absurd hq hnew
  · intro hall
    have hfilter : Reporter.unknownNotRequested ps avail = [] := by
      refine List.filter_eq_nil_iff.mpr (fun x hx hpx => ?_)
      simp only [Bool.and_eq_true, Bool.not_eq_true'] at hpx
      obtain ⟨h1, h2⟩ := hpx
      rcases hall x hx with hs | ⟨q, hq, hxq⟩
      · rw [Option.isNone_iff_eq_none] at h1
        rw [h1] at hs
        simp at hs
      · have hany : ps.requests.any (fun q' => q'.hashes.contains x) = true :=
          List.any_eq_true.mpr ⟨q, hq, by simp [List.elem_iff, hxq]⟩
        rw [hany] at h2
        simp at h2
    simp [Reporter.requestUnknownHashes, hfilter]

/-- Witness for C4 at a concrete store with one outstanding request. -/
theorem hash_id_request_idempotent_witness :
    (∀ q ∈ (Reporter.requestUnknownHashes 500 ["H1", "H2", "H3"] true 0
        (PackageStore.mk [] [HashIdRequest.mk 1 ["H1", "H3"] (some 0) 0] 2)
        (MessageStore.mk [] 1 [])).1.requests,
      q ∉ (PackageStore.mk [] [HashIdRequest.mk 1 ["H1", "H3"] (some 0) 0]
        2).requests → "H1" ∉ q.hashes) ∧
    Reporter.requestUnknownHashes 500 ["H1", "H3"] true 0
        (PackageStore.mk [] [HashIdRequest.mk 1 ["H1", "H3"] (some 0) 0] 2)
        (MessageStore.mk [] 1 [])
      = (PackageStore.mk [] [HashIdRequest.mk 1 ["H1", "H3"] (some 0) 0] 2,
         MessageStore.mk [] 1 []) := by
  constructor
  · exact (hash_id_request_idempotent 500 ["H1", "H2", "H3"] true 0
      (PackageStore.mk [] [HashIdRequest.mk 1 ["H1", "H3"] (some 0) 0] 2)
      (MessageStore.mk [] 1 []) "H1" (HashIdRequest.mk 1 ["H1", "H3"] (some 0) 0)
      (by decide) (by decide)).1
  · exact (hash_id_request_idempotent 500 ["H1", "H3"] true 0
      (PackageStore.mk [] [HashIdRequest.mk 1 ["H1", "H3"] (some 0) 0] 2)
      (MessageStore.mk [] 1 []) "H1" (HashIdRequest.mk 1 ["H1", "H3"] (some 0) 0)
      (by decide) (by decide)).2 (by decide)

theorem isEmpty_false_of_length_pos {α : Type} (l : List α)
    (h : 0 < l.length) : l.isEmpty = false := by
  cases l
  · simp at h
  · rfl

theorem filter_not_contains_take (l : List String) (n : Nat)
    (hl : l.Nodup) :
    l.filter (fun x => !((l.take n).contains x)) = l.drop n := by
  have h1 : (l.take n).filter (fun x => !((l.take n).contains x)) = [] :=
    List.filter_eq_nil_iff.mpr (fun a ha hpa => by
      simp [List.elem_iff, ha] at hpa)
  have h2 : (l.drop n).filter (fun x => !((l.take n).contains x))
      = l.drop n :=
    List.filter_eq_self.mpr (fun a ha => by
      have hna : a ∉ l.take n := fun hmem =>
        List.disjoint_take_drop hl le_rfl hmem ha
      simp [List.elem_iff, hna])
  calc l.filter (fun x => !((l.take n).contains x))
      = (l.take n ++ l.drop n).filter
          (fun x => !((l.take n).contains x)) := by
        rw [List.take_append_drop]
    _ = [] ++ l.drop n := by rw [List.filter_append, h1, h2]
    _ = l.drop n := List.nil_append _

/-- Claim C5: every newly created hash-id request carries at most the
configured cap of hashes, and when more unknown hashes exist than the
cap, a first run requests exactly the first `cap` of them and a second
run requests exactly the next batch, with no hash repeated across the two
requests. -/
theorem hash_id_request_capped (cap : Nat) (avail : List String)
    (now now2 : Int) (ps : PackageStore) (ms : MessageStore)
    (hreq : ps.requests = [])
    (hknown : ∀ x ∈ avail, ps.getHashId x = none)
    (hnodup : avail.Nodup) (hcap : 0 < cap) (hlen : cap < avail.length) :
    (∀ (avail0 : List String) (ps0 : PackageStore) (ms0 : MessageStore)
        (sendOk0 : Bool) (now0 : Int) (q : HashIdRequest),
      q ∈ (Reporter.requestUnknownHashes cap avail0 sendOk0 now0 ps0
          ms0).1.requests →
      q ∉ ps0.requests → q.hashes.length ≤ cap) ∧
    (Reporter.requestUnknownHashes cap avail true now ps ms).1.requests
      = [⟨ps.nextRequestId, avail.take cap, some ms.nextId, now⟩] ∧
    (avail.take cap).length = cap ∧
    (Reporter.requestUnknownHashes cap avail true now2
        (Reporter.requestUnknownHashes cap avail true now ps ms).1
        (Reporter.requestUnknownHashes cap avail true now ps ms).2).1.requests
      = [⟨ps.nextRequestId, avail.take cap, some ms.nextId, now⟩,
         ⟨ps.nextRequestId + 1, (avail.drop cap).take cap,
          some (ms.nextId + 1), now2⟩] ∧
    (∀ x ∈ (avail.drop cap).take cap, x ∉ avail.take cap) := by
  have hgen : ∀ (avail0 : List String) (ps0 : PackageStore)
      (ms0 : MessageStore) (sendOk0 : Bool) (now0 : Int) (q : HashIdRequest),
      q ∈ (Reporter.requestUnknownHashes cap avail0 sendOk0 now0 ps0
          ms0).1.requests →
      q ∉ ps0.requests → q.hashes.length ≤ cap := by
    intro avail0 ps0 ms0 sendOk0 now0 q hq hnew
    simp only [Reporter.requestUnknownHashes] at hq
    split at hq
    · exact absurd hq hnew
    · split at hq
      · simp only [MessageStore.add] at hq
        rcases List.mem_append.mp hq with hold | hnewq
        · exact absurd hold hnew
        · have hq2 : q = ⟨ps0.nextRequestId,
              (Reporter.unknownNotRequested ps0 avail0).take cap,
              some ms0.nextId, now0⟩ := by
            simpa using hnewq
          rw [hq2]
          exact List.length_take_le _ _
      · exact absurd hq hnew
  have hfilter1 : Reporter.unknownNotRequested ps avail = avail := by
    simp only [Reporter.unknownNotRequested]
    exact List.filter_eq_self.mpr (fun x hx => by
      simp [hknown x hx, hreq])
  have hlen1 : (avail.take cap).length = cap := by
    rw [List.length_take]
    omega
  have hne1 : (avail.take cap).isEmpty = false :=
    isEmpty_false_of_length_pos _ (by omega)
  have hfirst : Reporter.requestUnknownHashes cap avail true now ps ms
      = ({ ps with
            requests := [⟨ps.nextRequestId, avail.take cap, some ms.nextId,
              now⟩],
            nextRequestId := ps.nextRequestId + 1 },
         { ms with
            messages := ms.messages ++ [⟨ms.nextId,
              Message.mk "unknown-package-hashes"
                (.unknownPackageHashes (avail.take cap) ps.nextRequestId)⟩],
            nextId := ms.nextId + 1 }) := by
    simp [Reporter.requestUnknownHashes, hfilter1, hne1, MessageStore.add,
      hreq]
  have hfilter2 : ∀ ps' : PackageStore, ps'.hashIds = ps.hashIds →
      ps'.requests = [⟨ps.nextRequestId, avail.take cap, some ms.nextId,
        now⟩] →
      Reporter.unknownNotRequested ps' avail = avail.drop cap := by
    intro ps' hh hr
    simp only [Reporter.unknownNotRequested]
    have hpt : ∀ x ∈ avail,
        ((ps'.getHashId x).isNone
          && !(ps'.requests.any fun r => r.hashes.contains x))
        = (!((avail.take cap).contains x)) := by
      intro x hx
      have hgx : ps'.getHashId x = none := by
        simp only [PackageStore.getHashId, hh]
        exact hknown x hx
      rw [hgx, hr]
      simp
    rw [List.filter_congr hpt, filter_not_contains_take avail cap hnodup]
  have hlen2 : 0 < ((avail.drop cap).take cap).length := by
    rw [List.length_take, List.length_drop]
    omega
  have hne2 : ((avail.drop cap).take cap).isEmpty = false :=
    isEmpty_false_of_length_pos _ hlen2
  refine ⟨hgen, by rw [hfirst], hlen1, ?_, ?_⟩
  · rw [hfirst]
    have hf2 := hfilter2
      { ps with
          requests := [⟨ps.nextRequestId, avail.take cap, some ms.nextId,
            now⟩],
          nextRequestId := ps.nextRequestId + 1 } rfl rfl
    have hd : avail.drop cap ≠ [] := by
      intro h0
      rw [h0] at hlen2
      simp at hlen2
    have hc0 : ¬ cap = 0 := by omega
    simp [Reporter.requestUnknownHashes, hf2, hne2, MessageStore.add, hc0,
      hd]
  · intro x hx hxtake
    exact List.disjoint_take_drop hnodup le_rfl hxtake
      (List.mem_of_mem_take hx)

/-- Witness for C5 with cap 2 and three unknown hashes. -/
theorem hash_id_request_capped_witness :
    (Reporter.requestUnknownHashes 2 ["h1", "h2", "h3"] true 0
        (PackageStore.mk [] [] 1) (MessageStore.mk [] 1 [])).1.requests
      = [HashIdRequest.mk 1 ["h1", "h2"] (some 1) 0] ∧
    (Reporter.requestUnknownHashes 2 ["h1", "h2", "h3"] true 1
        (Reporter.requestUnknownHashes 2 ["h1", "h2", "h3"] true 0
          (PackageStore.mk [] [] 1) (MessageStore.mk [] 1 [])).1
        (Reporter.requestUnknownHashes 2 ["h1", "h2", "h3"] true 0
          (PackageStore.mk [] [] 1) (MessageStore.mk [] 1 [])).2).1.requests
      = [HashIdRequest.mk 1 ["h1", "h2"] (some 1) 0,
         HashIdRequest.mk 2 ["h3"] (some 2) 1] ∧
    (∀ x ∈ ["h3"], x ∉ ["h1", "h2"]) := by
  have h := hash_id_request_capped 2 ["h1", "h2", "h3"] 0 1
    (PackageStore.mk [] [] 1) (MessageStore.mk [] 1 [])
    rfl (by decide) (by decide) (by decide) (by decide)
  exact ⟨h.2.1, h.2.2.2.1, h.2.2.2.2⟩

theorem lookup_append_right (l rest : List (String × Nat)) (a : String)
    (h : ∀ p ∈ l, p.1 ≠ a) :
    List.lookup a (l ++ rest) = List.lookup a rest := by
  induction l with
  | nil => rfl
  | cons p l ih =>
    obtain ⟨k, v⟩ := p
    have hk : k ≠ a := h (k, v) (List.mem_cons_self _ _)
    have hbeq : (a == k) = false := by
      simp [Ne.symm hk]
    simp only [List.cons_append, List.lookup, hbeq]
    exact ih (fun q hq => h q (List.mem_cons_of_mem _ hq))

theorem knownPairs_key_mem (hs : List String) (ids : List (Option Nat))
    (p : String × Nat) (hp : p ∈ Reporter.knownPairs hs ids) : p.1 ∈ hs := by
  obtain ⟨q, hq, hmap⟩ := List.mem_filterMap.mp hp
  have h1 : q.1 ∈ hs := (List.of_mem_zip hq).1
  cases hq2 : q.2 with
  | none =>
    rw [hq2] at hmap
    simp at hmap
  | some i =>
    rw [hq2] at hmap
    simp only [Option.map_some', Option.some.injEq] at hmap
    rw [← hmap]
    exact h1

theorem lookup_knownPairs (hs : List String) :
    ∀ (ids : List (Option Nat)) (m : List (String × Nat)) (k : Nat)
      (i : Nat) (hk1 : k < ids.length) (hk2 : k < hs.length),
      hs.Nodup → ids[k] = some i →
      List.lookup hs[k]
        ((Reporter.knownPairs hs ids).reverse ++ m) = some i := by
  induction hs with
  | nil =>
    intro ids m k i hk1 hk2 _ _
    simp at hk2
  | cons a hs ih =>
    intro ids m k i hk1 hk2 hnd hi
    cases ids with
    | nil => simp at hk1
    | cons o ids =>
      cases k with
      | zero =>
        simp only [List.getElem_cons_zero] at hi ⊢
        subst hi
        have hkp : Reporter.knownPairs (a :: hs) (some i :: ids)
            = (a, i) :: Reporter.knownPairs hs ids := rfl
        rw [hkp, List.reverse_cons, List.append_assoc]
        rw [lookup_append_right _ _ _ (fun p hp heq => ?_)]
        · simp [List.lookup]
        · have hmem := knownPairs_key_mem hs ids p (List.mem_reverse.mp hp)
          rw [heq] at hmem
          exact (List.nodup_cons.mp hnd).1 hmem
      | succ k =>
        simp only [List.getElem_cons_succ] at hi ⊢
        cases o with
        | some j =>
          have hkp : Reporter.knownPairs (a :: hs) (some j :: ids)
              = (a, j) :: Reporter.knownPairs hs ids := rfl
          rw [hkp, List.reverse_cons, List.append_assoc]
          exact ih ids ([(a, j)] ++ m) k i (by simpa using hk1)
            (by simpa using hk2) (List.nodup_cons.mp hnd).2 hi
        | none =>
          have hkp : Reporter.knownPairs (a :: hs) (none :: ids)
              = Reporter.knownPairs hs ids := rfl
          rw [hkp]
          exact ih ids m k i (by simpa using hk1) (by simpa using hk2)
            (List.nodup_cons.mp hnd).2 hi

theorem lookup_knownPairs_not_mem (hs : List String)
    (ids : List (Option Nat)) (m : List (String × Nat)) (a : String)
    (ha : a ∉ hs) :
    List.lookup a ((Reporter.knownPairs hs ids).reverse ++ m)
      = List.lookup a m :=
  lookup_append_right _ _ _ (fun p hp heq =>
    ha (heq ▸ knownPairs_key_mem hs ids p (List.mem_reverse.mp hp)))

/-- Claim C1: answering a hash-id request with a positionally aligned id
list stores every known `(hash, id)` mapping, queues exactly one
follow-up `add-packages` message whose package data is exactly the
skeletons of the hashes at the `None` positions, tracks it under a new
hash-id request whose message id is pending, deletes the original request
so a later lookup of its id fails, and leaves the mappings of hashes
belonging to other outstanding (disjoint) requests unchanged. -/
theorem package_ids_reconciliation (skel : String → String) (now : Int)
    (ids : List (Option Nat)) (reqId : Nat) (ps : PackageStore)
    (ms : MessageStore) (r : HashIdRequest)
    (hfind : ps.getHashIdRequest reqId = some r)
    (hlen : ids.length = r.hashes.length)
    (hnd : r.hashes.Nodup)
    (hbound : ∀ q ∈ ps.requests, q.id < ps.nextRequestId)
    (hdisj : ∀ q ∈ ps.requests, q.id ≠ r.id → ∀ h ∈ q.hashes,
      h ∉ r.hashes)
    (hne : Reporter.unknownPositions r.hashes ids ≠ []) :
    (∀ (k : Nat) (hk1 : k < ids.length) (i : Nat), ids[k] = some i →
      (Reporter.setPackageIds skel true now ids reqId ps ms).1.getHashId
        (r.hashes.get ⟨k, hlen ▸ hk1⟩) = some i) ∧
    (Reporter.setPackageIds skel true now ids reqId ps ms).2.messages
      = ms.messages ++ [⟨ms.nextId, Message.mk "add-packages"
          (.addPackages ((Reporter.unknownPositions r.hashes ids).map skel)
            ps.nextRequestId)⟩] ∧
    HashIdRequest.mk ps.nextRequestId
        (Reporter.unknownPositions r.hashes ids) (some ms.nextId) now
      ∈ (Reporter.setPackageIds skel true now ids reqId ps ms).1.requests ∧
    (Reporter.setPackageIds skel true now ids reqId ps ms).2.isPending
        ms.nextId = true ∧
    (Reporter.setPackageIds skel true now ids reqId ps
        ms).1.getHashIdRequest reqId = none ∧
    (∀ q ∈ ps.requests, q.id ≠ r.id → ∀ h ∈ q.hashes,
      (Reporter.setPackageIds skel true now ids reqId ps ms).1.getHashId h
        = ps.getHashId h) := by
  have hrmem : r ∈ ps.requests := List.mem_of_find?_eq_some hfind
  have hrid : r.id = reqId := by
    have := List.find?_some hfind
    simpa using this
  have hEmpty : (Reporter.unknownPositions r.hashes ids).isEmpty
      = false := by
    cases hL : Reporter.unknownPositions r.hashes ids with
    | nil => exact absurd hL hne
    | cons a l => rfl
  have heval : Reporter.setPackageIds skel true now ids reqId ps ms
      = ({ ps with
            hashIds := (Reporter.knownPairs r.hashes ids).reverse
              ++ ps.hashIds,
            requests := ps.requests.filter (fun q => q.id != reqId)
              ++ [⟨ps.nextRequestId,
                   Reporter.unknownPositions r.hashes ids,
                   some ms.nextId, now⟩],
            nextRequestId := ps.nextRequestId + 1 },
         { ms with
            messages := ms.messages ++ [⟨ms.nextId,
              Message.mk "add-packages"
                (.addPackages
                  ((Reporter.unknownPositions r.hashes ids).map skel)
                  ps.nextRequestId)⟩],
            nextId := ms.nextId + 1 }) := by
    unfold Reporter.setPackageIds
    rw [hfind]
    simp [hEmpty, PackageStore.setHashIds, MessageStore.add]
  refine ⟨?_, ?_, ?_, ?_, ?_, ?_⟩
  · intro k hk1 i hi
    rw [heval]
    exact lookup_knownPairs r.hashes ids ps.hashIds k i hk1
      (hlen ▸ hk1) hnd hi
  · rw [heval]
  · rw [heval]
    simp
  · rw [heval]
    simp [MessageStore.isPending]
  · rw [heval]
    simp only [PackageStore.getHashIdRequest]
    refine List.find?_eq_none.mpr (fun q hq => ?_)
    rcases List.mem_append.mp hq with hf | hnew
    · have := (List.mem_filter.mp hf).2
      simpa using this
    · have hq2 : q = ⟨ps.nextRequestId,
          Reporter.unknownPositions r.hashes ids, some ms.nextId, now⟩ := by
        simpa using hnew
      have hlt : r.id < ps.nextRequestId := hbound r hrmem
      rw [hq2]
      simp only [beq_iff_eq]
      show ¬ ps.nextRequestId = reqId
      omega
  · intro q hq hneq h hh
    have hnotin : h ∉ r.hashes := hdisj q hq hneq h hh
    rw [heval]
    exact lookup_knownPairs_not_mem r.hashes ids ps.hashIds h hnotin

/-- Witness for C1 at a concrete store with one answered and one other
outstanding request. -/
theorem package_ids_reconciliation_witness :
    (Reporter.setPackageIds (fun h => h) true 5 [some 123, none, some 456] 1
        (PackageStore.mk []
          [HashIdRequest.mk 1 ["foo", "HASH1", "bar"] (some 0) 0,
           HashIdRequest.mk 2 ["other"] none 0] 3)
        (MessageStore.mk [] 9 [])).1.getHashId "foo" = some 123 ∧
    (Reporter.setPackageIds (fun h => h) true 5 [some 123, none, some 456] 1
        (PackageStore.mk []
          [HashIdRequest.mk 1 ["foo", "HASH1", "bar"] (some 0) 0,
           HashIdRequest.mk 2 ["other"] none 0] 3)
        (MessageStore.mk [] 9 [])).2.messages
      = [⟨9, Message.mk "add-packages" (.addPackages ["HASH1"] 3)⟩] ∧
    HashIdRequest.mk 3 ["HASH1"] (some 9) 5
      ∈ (Reporter.setPackageIds (fun h => h) true 5
          [some 123, none, some 456] 1
          (PackageStore.mk []
            [HashIdRequest.mk 1 ["foo", "HASH1", "bar"] (some 0) 0,
             HashIdRequest.mk 2 ["other"] none 0] 3)
          (MessageStore.mk [] 9 [])).1.requests ∧
    (Reporter.setPackageIds (fun h => h) true 5 [some 123, none, some 456] 1
        (PackageStore.mk []
          [HashIdRequest.mk 1 ["foo", "HASH1", "bar"] (some 0) 0,
           HashIdRequest.mk 2 ["other"] none 0] 3)
        (MessageStore.mk [] 9 [])).2.isPending 9 = true ∧
    (Reporter.setPackageIds (fun h => h) true 5 [some 123, none, some 456] 1
        (PackageStore.mk []
          [HashIdRequest.mk 1 ["foo", "HASH1", "bar"] (some 0) 0,
           HashIdRequest.mk 2 ["other"] none 0] 3)
        (MessageStore.mk [] 9 [])).1.getHashIdRequest 1 = none ∧
    (Reporter.setPackageIds (fun h => h) true 5 [some 123, none, some 456] 1
        (PackageStore.mk []
          [HashIdRequest.mk 1 ["foo", "HASH1", "bar"] (some 0) 0,
           HashIdRequest.mk 2 ["other"] none 0] 3)
        (MessageStore.mk [] 9 [])).1.getHashId "other"
      = (PackageStore.mk []
          [HashIdRequest.mk 1 ["foo", "HASH1", "bar"] (some 0) 0,
           HashIdRequest.mk 2 ["other"] none 0] 3).getHashId "other" := by
  have H := package_ids_reconciliation (fun h => h) 5
    [some 123, none, some 456] 1
    (PackageStore.mk []
      [HashIdRequest.mk 1 ["foo", "HASH1", "bar"] (some 0) 0,
       HashIdRequest.mk 2 ["other"] none 0] 3)
    (MessageStore.mk [] 9 [])
    (HashIdRequest.mk 1 ["foo", "HASH1", "bar"] (some 0) 0)
    (by decide) (by decide) (by decide) (by decide) (by decide) (by decide)
  exact ⟨H.1 0 (by decide) 123 (by decide), H.2.1, H.2.2.1, H.2.2.2.1,
    H.2.2.2.2.1,
    H.2.2.2.2.2 (HashIdRequest.mk 2 ["other"] none 0) (by decide)
      (by decide) "other" (by decide)⟩

end Landscape
